import Mathlib

/-!
Shallow embedding of the fend core (unit-aware calculator engine).

Embedded from the repository sources:
  - src/core/src/num/unit.rs : the dimensional unit algebra (BaseUnit,
    NamedUnit, UnitExponent, Unit, UnitValue and their operations)
  - src/core/src/lexer.rs    : the token scanner with its cooperative
    cancellation polling
  - src/core/src/lib.rs      : the public evaluate entry points

The scalar type ExactBase, the Number alias, the Base type, and the
Interrupt machinery live in repository files that are not available
(num/exact_base.rs, num/mod.rs, err.rs, interrupt.rs); those parts are
modelled from the spec and are marked as such with doc comments. The
scalar is modelled as an exact rational; the approximate flag and the
complex component of the spec are not modelled because no claim below
depends on them. Rust Result values, panics (unwrap on a failed result)
and the distinguished interrupted outcome are modelled by the four
constructor result type RRes.
-/

namespace fend

attribute [local semireducible] Rat.add Rat.mul Rat.sub Rat.inv Rat.ofScientific

/-- Result type for the embedded Rust code: ok and err mirror Result,
interrupted mirrors the IntErr cancellation channel, and crash mirrors a
Rust panic (for example unwrap applied to an Err value). -/
inductive RRes (α : Type) where
  | ok (val : α)
  | err (msg : String)
  | interrupted
  | crash
deriving DecidableEq

/-- Modelled from the spec: ExactBase division fails with the
DivisionByZero category when the divisor is the zero value, and is exact
otherwise (spec 4.1). The source file num/exact_base.rs is missing. -/
def qdiv (a b : ℚ) : Except String ℚ :=
  if b = 0 then .error "Division by zero" else .ok (a / b)

/-- Modelled from the spec: ExactBase pow keeps integer powers of
rationals exact (spec 4.1). Non integer exponents cannot be represented
exactly by the rational model, so they are reported as a failure here;
no claim below depends on that branch. -/
def qpow (b e : ℚ) : Except String ℚ :=
  if e.den = 1 then
    if b = 0 ∧ e.num < 0 then .error "Attempt to raise zero to a negative power"
    else if 0 ≤ e.num then .ok (b ^ e.num.toNat)
    else .ok ((b ^ (-e.num).toNat)⁻¹)
  else .error "Unable to compute an exact power"

/-- Smallest exact integer n-th root of a natural number, when one
exists. -/
def intRoot (m k : ℕ) : Option ℕ :=
  (List.range (m + 2)).find? (fun r => r ^ k == m)

/-- Modelled from the spec: ExactBase root_n fails on a negative
radicand for an even root and is exact on perfect powers (spec 4.1).
Roots that are not exact rationals are reported as a failure in this
rational model; no claim below depends on that branch. -/
def qrootn (v n : ℚ) : Except String ℚ :=
  if n.den = 1 ∧ 1 ≤ n.num then
    let k := n.num.toNat
    if v < 0 ∧ k % 2 = 0 then .error "Cannot compute an even root of a negative number"
    else
      match intRoot v.num.natAbs k, intRoot v.den k with
      | some a, some b => .ok ((if v < 0 then -(a : ℚ) else (a : ℚ)) / (b : ℚ))
      | _, _ => .error "Cannot compute an exact root"
  else .error "Cannot compute an exact root"

/-- Modelled from the spec: the Base type of num/mod.rs is missing. A
base stores its radix; the prefixed flag records whether the base came
from a literal prefix such as 0x, which is the modelling choice for
allow_leading_zeroes (no claim depends on leading zero handling). -/
structure Base where
  value : ℕ
  prefixed : Bool
deriving DecidableEq

def Base.base_as_u8 (b : Base) : ℕ := b.value

def Base.allow_leading_zeroes (b : Base) : Bool := b.prefixed

def Base.default : Base := ⟨10, false⟩

/-- Modelled from the spec comment in lexer.rs: 0x is 16, 0d is 10, 0o
is 8, 0b is 2. -/
def Base.from_zero_based_prefix_char (ch : Char) : Except String Base :=
  if ch = 'x' then .ok ⟨16, true⟩
  else if ch = 'd' then .ok ⟨10, true⟩
  else if ch = 'o' then .ok ⟨8, true⟩
  else if ch = 'b' then .ok ⟨2, true⟩
  else .error "Unable to parse a valid base prefix"

/-- Modelled from the spec comment in lexer.rs: a custom base written
base#, validity of the range 2..=36 is checked by the caller. -/
def Base.from_custom_base (b : ℕ) : Except String Base := .ok ⟨b, false⟩

/-- Modelled from the spec: add_digit_in_base multiplies the current
value by the base and adds the digit (spec 4.1 and 8). The fractional
place tracking variant mentioned by the spec is not modelled because no
claim depends on digits after the decimal point. -/
def ExactBase.add_digit_in_base (v : ℚ) (digit : ℕ) (base : Base) : ℚ :=
  v * (base.base_as_u8 : ℚ) + (digit : ℚ)

/- ----------------------------------------------------------------
Embedding of src/core/src/num/unit.rs
---------------------------------------------------------------- -/

/-- BaseUnit from unit.rs: a base unit identified solely by its name. -/
structure BaseUnit where
  name : String
deriving DecidableEq

/-- UnitExponent from unit.rs: a generic (thing, exponent) pair; the
exponent is an ExactBase, modelled as a rational. -/
structure UnitExponent (T : Type) where
  unit : T
  exponent : ℚ
deriving DecidableEq

/-- NamedUnit from unit.rs: display names, spacing flag, base unit
decomposition and scale. -/
structure NamedUnit where
  singular_name : String
  plural_name : String
  spacing : Bool
  base_units : List (UnitExponent BaseUnit)
  scale : ℚ
deriving DecidableEq

/-- Unit from unit.rs: an ordered sequence of named unit exponents. -/
structure Unit where
  components : List (UnitExponent NamedUnit)
deriving DecidableEq

/-- UnitValue from unit.rs: an ExactBase paired with a Unit. -/
structure UnitValue where
  value : ℚ
  unit : Unit
deriving DecidableEq

/-- Lookup in the association list that models the Rust HashMap used by
into_hashmap_and_scale. -/
def assocGet (m : List (BaseUnit × ℚ)) (k : BaseUnit) : Option ℚ :=
  (m.find? (fun p => decide (p.1 = k))).map (fun p => p.2)

/-- Pointwise update of the entry for key k, modelling get_mut followed
by an in place addition. -/
def assocAdd (m : List (BaseUnit × ℚ)) (k : BaseUnit) (inc : ℚ) : List (BaseUnit × ℚ) :=
  m.map (fun p => if p.1 = k then (p.1, p.2 + inc) else p)

/-- Extensional equality of the two association lists, which is exactly
the Rust HashMap equality used by try_convert: same keys with the same
exact exponents. -/
def mapEq (m1 m2 : List (BaseUnit × ℚ)) : Bool :=
  m1.all (fun p => decide (assocGet m2 p.1 = some p.2))
    && m2.all (fun p => decide (assocGet m1 p.1 = some p.2))

/-- Unit.into_hashmap_and_scale from unit.rs. For each component the
inner fold walks the base unit decomposition: when the base unit is
already present the entry is increased by overall_exp * base_exp, and
when it is absent the entry is created at overall_exp (exactly as in the
source, which does not multiply by the base exponent on first insert).
The aggregate scale multiplies in scale ^ overall_exp; the source
unwraps that pow, so a pow failure is a panic, modelled by none. -/
def Unit.into_hashmap_and_scale (u : Unit) : Option (List (BaseUnit × ℚ) × ℚ) :=
  u.components.foldl
    (fun acc named_unit_exp =>
      match acc with
      | none => none
      | some (hashmap, scale) =>
        let overall_exp := named_unit_exp.exponent
        let hashmap2 := named_unit_exp.unit.base_units.foldl
          (fun m base_unit_exp =>
            match assocGet m base_unit_exp.unit with
            | some _ => assocAdd m base_unit_exp.unit (overall_exp * base_unit_exp.exponent)
            | none => m ++ [(base_unit_exp.unit, overall_exp)])
          hashmap
        match qpow named_unit_exp.unit.scale overall_exp with
        | .ok p => some (hashmap2, scale * p)
        | .error _ => none)
    (some ([], 1))

/-- Unit.try_convert from unit.rs: canonicalize both units, compare the
base unit maps, and on equality return scale_a divided by scale_b. The
source unwraps that division, so a division failure is a panic, modelled
by crash. -/
def Unit.try_convert (uFrom uInto : Unit) : RRes ℚ :=
  match uFrom.into_hashmap_and_scale, uInto.into_hashmap_and_scale with
  | some (_hash_a, scale_a), some (_hash_b, scale_b) =>
    if mapEq _hash_a _hash_b then
      match qdiv scale_a scale_b with
      | .ok q => .ok q
      | .error _ => .crash
    else .err "Units are incompatible"
  | _, _ => .crash

/-- Unit.unitless from unit.rs. -/
def Unit.unitless : Unit := ⟨[]⟩

/-- UnitValue.new from unit.rs. -/
def UnitValue.new (value : ℚ) (unit_components : List (UnitExponent NamedUnit)) : UnitValue :=
  ⟨value, ⟨unit_components⟩⟩

/-- The kilogram base unit shared by the kg and g constructors in
unit.rs. -/
def base_kg : BaseUnit := ⟨"kilogram"⟩

/-- The NamedUnit built inside UnitValue.kg in unit.rs. -/
def named_kg : NamedUnit := ⟨"kg", "kg", true, [⟨base_kg, 1⟩], 1⟩

/-- UnitValue.kg from unit.rs: one kilogram. -/
def UnitValue.kg : UnitValue := UnitValue.new 1 [⟨named_kg, 1⟩]

/-- The NamedUnit built inside UnitValue.g in unit.rs: gram decomposes
to kilogram with scale 1 / 1000. -/
def named_g : NamedUnit := ⟨"g", "g", true, [⟨base_kg, 1⟩], 1 / 1000⟩

/-- UnitValue.g from unit.rs: one gram. -/
def UnitValue.g : UnitValue := UnitValue.new 1 [⟨named_g, 1⟩]

/-- UnitValue.add from unit.rs: convert the right operand into the unit
of the left operand and keep the unit of the left operand. -/
def UnitValue.add (a rhs : UnitValue) : RRes UnitValue :=
  match Unit.try_convert rhs.unit a.unit with
  | .ok scale_factor => .ok ⟨a.value + rhs.value * scale_factor, a.unit⟩
  | .err e => .err e
  | .interrupted => .interrupted
  | .crash => .crash

/-- UnitValue.sub from unit.rs. -/
def UnitValue.sub (a rhs : UnitValue) : RRes UnitValue :=
  match Unit.try_convert rhs.unit a.unit with
  | .ok scale_factor => .ok ⟨a.value - rhs.value * scale_factor, a.unit⟩
  | .err e => .err e
  | .interrupted => .interrupted
  | .crash => .crash

/-- UnitValue.div from unit.rs: concatenate the components of the left
operand with the negated components of the right operand, and divide the
scalars. -/
def UnitValue.div (a rhs : UnitValue) : RRes UnitValue :=
  let components := a.unit.components
    ++ rhs.unit.components.map (fun c => UnitExponent.mk c.unit (-c.exponent))
  match qdiv a.value rhs.value with
  | .ok v => .ok ⟨v, ⟨components⟩⟩
  | .error e => .err e

/-- UnitValue.is_unitless from unit.rs: true iff the component list is
empty. -/
def UnitValue.is_unitless (a : UnitValue) : Bool := a.unit.components.isEmpty

/-- UnitValue.pow from unit.rs. -/
def UnitValue.pow (a rhs : UnitValue) : RRes UnitValue :=
  if !a.is_unitless || !rhs.is_unitless then
    .err "Exponents are currently only supported for unitless numbers."
  else
    match qpow a.value rhs.value with
    | .ok v => .ok ⟨v, a.unit⟩
    | .error e => .err e

/-- UnitValue.root_n from unit.rs. -/
def UnitValue.root_n (a rhs : UnitValue) : RRes UnitValue :=
  if !a.is_unitless || !rhs.is_unitless then
    .err "Roots are currently only supported for unitless numbers."
  else
    match qrootn a.value rhs.value with
    | .ok v => .ok ⟨v, a.unit⟩
    | .error e => .err e

/-- UnitValue.zero_with_base from unit.rs: a unitless zero accumulator.
The preferred display base carried by ExactBase is not part of the
rational scalar model. -/
def UnitValue.zero_with_base (_base : Base) : UnitValue := ⟨0, Unit.unitless⟩

/-- UnitValue.add_digit_in_base from unit.rs: delegate to the scalar
operation, keeping the unit. -/
def UnitValue.add_digit_in_base (a : UnitValue) (digit : ℕ) (base : Base) : UnitValue :=
  ⟨ExactBase.add_digit_in_base a.value digit base, a.unit⟩

/-- UnitValue.is_negative from unit.rs. -/
def UnitValue.is_negative (a : UnitValue) : Bool := decide (a.value < 0)

/-- The Neg implementation for UnitValue from unit.rs. -/
def UnitValue.neg (a : UnitValue) : UnitValue := ⟨-a.value, a.unit⟩

/-- The Mul implementation for UnitValue from unit.rs: scalar product
and concatenation of the component sequences. -/
def UnitValue.mul (a rhs : UnitValue) : UnitValue :=
  ⟨a.value * rhs.value, ⟨a.unit.components ++ rhs.unit.components⟩⟩

/-- The From u64 implementation for UnitValue from unit.rs. -/
def UnitValue.fromNat (i : ℕ) : UnitValue := ⟨(i : ℚ), Unit.unitless⟩

/-- Candidate count of fractional digits: the least k with d dividing
10 ^ k, searched up to d. -/
def find10k (d : ℕ) : Option ℕ :=
  (List.range (d + 1)).find? (fun k => decide ((10 : ℕ) ^ k % d = 0))

/-- Modelled from the spec: ExactBase formatting renders an exact value
that terminates in the display base exactly (spec 4.1). Only base 10 is
modelled, which is the base used by the display claims and pinned by the
tests in unit.rs. Values with a non terminating expansion fall into a
marker branch that no claim depends on. -/
def formatQ (q : ℚ) : String :=
  let s := if q < 0 then "-" else ""
  let a : ℚ := |q|
  let ip : ℕ := a.floor.toNat
  let fr : ℚ := a - (ip : ℚ)
  if fr = 0 then s ++ toString ip
  else
    match find10k fr.den with
    | some k =>
      let m : ℕ := fr.num.toNat * 10 ^ k / fr.den
      let ds := toString m
      let padded := String.mk (List.replicate (k - ds.length) '0') ++ ds
      s ++ toString ip ++ "." ++ padded
    | none => s ++ toString ip ++ ".approx"

/-- The Display implementation for UnitValue from unit.rs: render the
scalar, then each component; write a separating space unless the
component is the first one and its named unit has spacing set to false;
append a caret and the exponent when the exponent is not 1. -/
def UnitValue.format (uv : UnitValue) : String :=
  formatQ uv.value ++ String.join ((uv.unit.components.enum).map
    (fun p =>
      (if 0 < p.1 || p.2.unit.spacing then " " else "")
        ++ p.2.unit.singular_name
        ++ (if p.2.exponent = 1 then "" else "^" ++ formatQ p.2.exponent)))

/-- Wrap a scalar operation result back into a UnitValue with the given
unit, mirroring the shared tail of UnitValue.pow and UnitValue.root_n. -/
def liftScalar (u : Unit) (r : Except String ℚ) : RRes UnitValue :=
  match r with
  | .ok v => .ok ⟨v, u⟩
  | .error e => .err e

/-- Apply the display rendering under the result type. -/
def fmtRes (r : RRes UnitValue) : RRes String :=
  match r with
  | .ok v => .ok v.format
  | .err e => .err e
  | .interrupted => .interrupted
  | .crash => .crash

/-- Specification side formula for the canonical map, written from the
words of the spec (spec 4.3): the accumulated exponent of a base unit is
the sum over all components and decomposition entries of
overall_exp * base_exp, with the first insert treated the same way. This
definition exists to be compared with Unit.into_hashmap_and_scale. -/
def specBaseExpSum (u : Unit) (b : BaseUnit) : ℚ :=
  (u.components.map (fun c =>
    ((c.unit.base_units.filter (fun be => decide (be.unit = b))).map
      (fun be => c.exponent * be.exponent)).sum)).sum

/- ----------------------------------------------------------------
Embedding of src/core/src/lexer.rs
---------------------------------------------------------------- -/

/-- Modelled from the spec: the caller supplied cancellation object of
err.rs and interrupt.rs is missing from the sources. It is polled at
fixed points; the model is a Boolean stream indexed by the number of
polls made so far, true meaning that a cancellation request is observed
at that poll. -/
abbrev Interrupt := ℕ → Bool

/-- The interrupt::Never object used by evaluate: no poll ever reports
a cancellation request. -/
def Never : Interrupt := fun _ => false

/-- Symbol from lexer.rs. -/
inductive Symbol where
  | openParens
  | closeParens
  | add
  | sub
  | mul
  | div
  | innerDiv
  | pow
  | arrowConversion
  | factorial
deriving DecidableEq

/-- Token from lexer.rs. The contained Number is modelled as a rational
(the scalar model used throughout this file). -/
inductive Token where
  | num (n : ℚ)
  | ident (s : String)
  | symbol (s : Symbol)
deriving DecidableEq

/-- parse_char from lexer.rs: split off the first character. -/
def parse_char (input : List Char) : RRes (Char × List Char) :=
  match input with
  | ch :: rest => .ok (ch, rest)
  | [] => .err "Expected a character"

/-- The Rust char::to_digit used by parse_ascii_digit: decimal digits
and letters of either case, valid when below the radix. -/
def charToDigit (c : Char) (radix : ℕ) : Option ℕ :=
  let v : Option ℕ :=
    if 48 ≤ c.toNat ∧ c.toNat ≤ 57 then some (c.toNat - 48)
    else if 97 ≤ c.toNat ∧ c.toNat ≤ 122 then some (c.toNat - 97 + 10)
    else if 65 ≤ c.toNat ∧ c.toNat ≤ 90 then some (c.toNat - 65 + 10)
    else none
  match v with
  | some d => if d < radix then some d else none
  | none => none

/-- parse_ascii_digit from lexer.rs. -/
def parse_ascii_digit (input : List Char) (base : Base) : RRes (ℕ × List Char) :=
  match parse_char input with
  | .ok (ch, rest) =>
    match charToDigit ch base.base_as_u8 with
    | some digit => .ok (digit, rest)
    | none => .err ("Expected a digit, found \x27" ++ String.mk [ch] ++ "\x27")
  | .err e => .err e
  | .interrupted => .interrupted
  | .crash => .crash

/-- parse_fixed_char from lexer.rs. The error message interpolates the
two characters in the order the source does. -/
def parse_fixed_char (input : List Char) (ch : Char) : RRes (List Char) :=
  match parse_char input with
  | .ok (parsed_ch, rest) =>
    if parsed_ch = ch then .ok rest
    else .err ("Expected \x27" ++ String.mk [parsed_ch] ++ "\x27, found \x27"
      ++ String.mk [ch] ++ "\x27")
  | .err e => .err e
  | .interrupted => .interrupted
  | .crash => .crash

/-- parse_digit_separator from lexer.rs: an underscore or a comma. -/
def parse_digit_separator (input : List Char) : RRes (List Char) :=
  match parse_char input with
  | .ok (parsed_ch, rest) =>
    if parsed_ch = '_' ∨ parsed_ch = ',' then .ok rest
    else .err ("Expected a digit separator, found " ++ String.mk [parsed_ch])
  | .err e => .err e
  | .interrupted => .interrupted
  | .crash => .crash

/-- The loop inside parse_integer from lexer.rs: optionally a digit
separator, then a digit, repeated until no digit follows. The fuel
argument bounds the number of iterations; every iteration that recurses
consumes at least the parsed digit, so any fuel larger than the input
length is enough and the crash branch is unreachable from parse_integer. -/
def parse_integer_loop (S : Type) (fuel : ℕ) (allow_digit_separator allow_leading_zeroes : Bool)
    (base : Base) (leading_zero : Bool) (process_digit : S → ℕ → RRes S)
    (state : S) (input : List Char) : RRes (S × List Char) :=
  match fuel with
  | 0 => .crash
  | fuel + 1 =>
    let step :=
      match parse_digit_separator input with
      | .ok remaining => (remaining, true)
      | _ => (input, false)
    let input2 := step.1
    let parsed_digit_separator := step.2
    if parsed_digit_separator && !allow_digit_separator then
      .err "Digit separators are not allowed"
    else
      match parse_ascii_digit input2 base with
      | .ok (digit, next_input) =>
        if leading_zero && !allow_leading_zeroes then
          .err "Integer literals cannot have leading zeroes"
        else
          match process_digit state digit with
          | .ok state2 =>
            parse_integer_loop S fuel allow_digit_separator allow_leading_zeroes base
              leading_zero process_digit state2 next_input
          | .err e => .err e
          | .interrupted => .interrupted
          | .crash => .crash
      | _ =>
        if parsed_digit_separator then
          .err "Digit separators can only occur between digits"
        else .ok (state, input2)

/-- parse_integer from lexer.rs: at least one digit, feeding every digit
to the caller supplied process_digit closure. -/
def parse_integer (S : Type) (input : List Char)
    (allow_digit_separator allow_leading_zeroes : Bool) (base : Base)
    (state : S) (process_digit : S → ℕ → RRes S) : RRes (S × List Char) :=
  match parse_ascii_digit input base with
  | .ok (digit, input1) =>
    match process_digit state digit with
    | .ok state1 =>
      parse_integer_loop S (input1.length + 1) allow_digit_separator allow_leading_zeroes
        base (decide (digit = 0)) process_digit state1 input1
    | .err e => .err e
    | .interrupted => .interrupted
    | .crash => .crash
  | .err e => .err e
  | .interrupted => .interrupted
  | .crash => .crash

/-- The digit closure of the custom base branch of parse_base_prefix in
lexer.rs, extracted as a named function. -/
def custom_base_step (custom_base digit : ℕ) : RRes ℕ :=
  if custom_base > 3 then .err "Base cannot be larger than 36"
  else
    let custom_base2 := 10 * custom_base + digit
    if custom_base2 > 36 then .err "Base cannot be larger than 36"
    else .ok custom_base2

/-- The digit closure used for the integer component and for the
exponent in parse_basic_number of lexer.rs: multiply by the base and add
the digit through the scalar operations. -/
def number_digit_step (base : Base) (res : ℚ) (digit : ℕ) : RRes ℚ :=
  .ok (res * (base.base_as_u8 : ℚ) + (digit : ℚ))

/-- The digit closure used after the decimal point in parse_basic_number
of lexer.rs: delegate to add_digit_in_base. -/
def frac_digit_step (base : Base) (res : ℚ) (digit : ℕ) : RRes ℚ :=
  .ok (ExactBase.add_digit_in_base res digit base)

/-- parse_base_prefix from lexer.rs: 0x, 0d, 0o, 0b or a custom base
written base#. -/
def parse_base_prefix (input : List Char) : RRes (Base × List Char) :=
  match parse_fixed_char input '0' with
  | .ok input1 =>
    match parse_char input1 with
    | .ok (ch, input2) =>
      match Base.from_zero_based_prefix_char ch with
      | .ok b => .ok (b, input2)
      | .error e => .err e
    | .err e => .err e
    | .interrupted => .interrupted
    | .crash => .crash
  | _ =>
    match parse_integer ℕ input false false Base.default 0 custom_base_step with
    | .ok (custom_base, input1) =>
      if custom_base < 2 then .err "Base must be at least 2"
      else
        match parse_fixed_char input1 '#' with
        | .ok input2 =>
          match Base.from_custom_base custom_base with
          | .ok b => .ok (b, input2)
          | .error e => .err e
        | .err e => .err e
        | .interrupted => .interrupted
        | .crash => .crash
    | .err e => .err e
    | .interrupted => .interrupted
    | .crash => .crash

/-- parse_basic_number from lexer.rs: integer component, optional
fractional component after a decimal point, optional exponent for bases
up to 10. The Number operations used by the digit closures are the
modelled scalar operations, which do not poll the interrupt, so the
interrupt argument of the source is dropped here. -/
def parse_basic_number (input : List Char) (base : Base) (allow_zero : Bool) :
    RRes (ℚ × List Char) :=
  match parse_integer ℚ input true base.allow_leading_zeroes base 0
      (number_digit_step base) with
  | .ok (res0, input1) =>
    match
      (match parse_fixed_char input1 '.' with
       | .ok remaining =>
         parse_integer ℚ remaining true true base res0 (frac_digit_step base)
       | _ => .ok (res0, input1)) with
    | .ok (res1, input2) =>
      if !allow_zero && decide (res1 = 0) then .err "Invalid number: 0"
      else if base.base_as_u8 ≤ 10 then
        match parse_fixed_char input2 'e' with
        | .ok remaining =>
          let abort :=
            match parse_char remaining with
            | .ok (ch, _) => !(ch.isAlphanum || ch = '+' || ch = '-')
            | _ => true
          if abort then .ok (res1, input2)
          else
            let signStep :=
              match parse_fixed_char remaining '-' with
              | .ok r2 => (true, r2)
              | _ =>
                match parse_fixed_char remaining '+' with
                | .ok r2 => (false, r2)
                | _ => (false, remaining)
            match parse_integer ℚ signStep.2 true true base 0 (number_digit_step base) with
            | .ok (exp0, remaining2) =>
              let exp1 := if signStep.1 then -exp0 else exp0
              match qpow (base.base_as_u8 : ℚ) exp1 with
              | .ok p => .ok (res1 * p, remaining2)
              | .error e => .err e
            | .err e => .err e
            | .interrupted => .interrupted
            | .crash => .crash
        | _ => .ok (res1, input2)
      else .ok (res1, input2)
    | .err e => .err e
    | .interrupted => .interrupted
    | .crash => .crash
  | .err e => .err e
  | .interrupted => .interrupted
  | .crash => .crash

/-- parse_number from lexer.rs: a base prefix if one parses, then a
basic number. -/
def parse_number (input : List Char) : RRes (ℚ × List Char) :=
  match parse_base_prefix input with
  | .ok (base, input1) => parse_basic_number input1 base true
  | _ => parse_basic_number input Base.default true

/-- is_valid_in_ident_char from lexer.rs: characters valid only by
themselves. -/
def is_valid_in_ident_char (ch : Char) : Bool :=
  "%‰‱′″\x22\x27’”".toList.contains ch

/-- The block of unit and currency characters allowed in identifiers,
copied from is_valid_in_ident in lexer.rs. -/
def ident_symbol_chars : String :=
  ",&_⅛¼⅜½⅝¾⅞⅙⅓⅔⅚⅕⅖⅗⅘°$℃℉℧℈℥℔¢£¥€₩₪₤₨฿₡₣₦₧₫₭₮₯₱﷼﹩￠￡￥￦㍱㍲㍳㍴㍶㎀㎁㎂㎃㎄㎅㎆㎇㎈㎉㎊㎋㎌㎍㎎㎏㎐㎑㎒㎓㎔㎕㎖㎗㎘㎙㎚㎛㎜㎝㎞㎟㎠㎡㎢㎣㎤㎥㎦㎧㎨㎩㎪㎫㎬㎭㎮㎯㎰㎱㎲㎳㎴㎵㎶㎷㎸㎹㎺㎻㎼㎽㎾㎿㏀㏁㏃㏄㏅㏆㏈㏉㏊㏌㏏㏐㏓㏔㏕㏖㏗㏙㏛㏜㏝"

/-- is_valid_in_ident from lexer.rs. The Rust is_alphabetic test is
Unicode aware; the model uses the ASCII alphabetic test, which agrees on
every input exercised by the claims. -/
def is_valid_in_ident (ch : Char) (first : Bool) : Bool :=
  ch.isAlpha || ident_symbol_chars.toList.contains ch
    || (!first && ".0123456789".toList.contains ch)

/-- parse_ident from lexer.rs: a leading identifier character followed
by the longest run of identifier characters; the words to, as and per
become symbols. The byte index walk of the source is the same as taking
the longest valid run of characters. -/
def parse_ident (input : List Char) : RRes (Token × List Char) :=
  match parse_char input with
  | .ok (first_char, _) =>
    if !is_valid_in_ident first_char true then
      if is_valid_in_ident_char first_char then
        .ok (Token.ident (String.mk [first_char]), input.tail)
      else
        .err ("Character \x27" ++ String.mk [first_char]
          ++ "\x27 is not valid at the beginning of an identifier")
    else
      let restChars := input.tail.takeWhile (fun c => is_valid_in_ident c false)
      let identStr := String.mk (first_char :: restChars)
      let remaining := input.tail.drop restChars.length
      .ok
        ((if identStr = "to" ∨ identStr = "as" then Token.symbol Symbol.arrowConversion
          else if identStr = "per" then Token.symbol Symbol.div
          else Token.ident identStr), remaining)
  | .err e => .err e
  | .interrupted => .interrupted
  | .crash => .crash

/-- The loop body of lex from lexer.rs. Every iteration first polls the
interrupt (test_int at the top of the source loop), then scans one
whitespace character, one token, or finishes on empty input. The fuel
argument bounds the number of iterations; every iteration except the
final one consumes at least one character, so any fuel larger than the
input length is enough and the crash branch is unreachable from lex.
The Rust whitespace test is Unicode aware; the model uses the ASCII
whitespace test, which agrees on every input exercised by the claims. -/
def lex_aux (int : Interrupt) (fuel polls : ℕ) (input : List Char) (res : List Token) :
    RRes (List Token) :=
  match fuel with
  | 0 => .crash
  | fuel + 1 =>
    if int polls then .interrupted
    else
      match input with
      | [] => .ok res
      | ch :: rest =>
        if ch.isWhitespace then lex_aux int fuel (polls + 1) rest res
        else if ch.isDigit then
          match parse_number input with
          | .ok (num, remaining) =>
            lex_aux int fuel (polls + 1) remaining (res ++ [Token.num num])
          | .err e => .err e
          | .interrupted => .interrupted
          | .crash => .crash
        else if is_valid_in_ident ch true || is_valid_in_ident_char ch then
          match parse_ident input with
          | .ok (tok, remaining) =>
            lex_aux int fuel (polls + 1) remaining (res ++ [tok])
          | .err e => .err e
          | .interrupted => .interrupted
          | .crash => .crash
        else if ch = '(' then
          lex_aux int fuel (polls + 1) rest (res ++ [Token.symbol Symbol.openParens])
        else if ch = ')' then
          lex_aux int fuel (polls + 1) rest (res ++ [Token.symbol Symbol.closeParens])
        else if ch = '+' then
          lex_aux int fuel (polls + 1) rest (res ++ [Token.symbol Symbol.add])
        else if ch = '!' then
          lex_aux int fuel (polls + 1) rest (res ++ [Token.symbol Symbol.factorial])
        else if ch = '-' then
          if rest.head? = some '>' then
            lex_aux int fuel (polls + 1) rest.tail (res ++ [Token.symbol Symbol.arrowConversion])
          else lex_aux int fuel (polls + 1) rest (res ++ [Token.symbol Symbol.sub])
        else if ch = '*' then
          if rest.head? = some '*' then
            lex_aux int fuel (polls + 1) rest.tail (res ++ [Token.symbol Symbol.pow])
          else lex_aux int fuel (polls + 1) rest (res ++ [Token.symbol Symbol.mul])
        else if ch = '/' then
          lex_aux int fuel (polls + 1) rest (res ++ [Token.symbol Symbol.div])
        else if ch = '|' then
          lex_aux int fuel (polls + 1) rest (res ++ [Token.symbol Symbol.innerDiv])
        else if ch = '^' then
          lex_aux int fuel (polls + 1) rest (res ++ [Token.symbol Symbol.pow])
        else .err ("Unexpected character \x27" ++ String.mk [ch] ++ "\x27")

/-- lex from lexer.rs. -/
def lex (input : List Char) (int : Interrupt) : RRes (List Token) :=
  lex_aux int (input.length + 1) 0 input []

/- ----------------------------------------------------------------
Embedding of src/core/src/lib.rs
---------------------------------------------------------------- -/

/-- FendResult from lib.rs. -/
structure FendResult where
  main_result : String
  other_info : List String
deriving DecidableEq

/-- evaluate_with_interrupt from lib.rs. The evaluator pipeline
(eval::evaluate_to_string) lives in files missing from the sources, so
it is passed as a parameter; the function inspects it only on non empty
input. An Interrupt outcome from the evaluator is turned into the plain
error string Interrupted at this public boundary, exactly as the source
does. -/
def evaluate_with_interrupt (evaluator : String → Interrupt → RRes String)
    (input : String) (int : Interrupt) : RRes FendResult :=
  if input.isEmpty then .ok ⟨"", []⟩
  else
    match evaluator input int with
    | .ok value => .ok ⟨value, []⟩
    | .interrupted => .err "Interrupted"
    | .err e => .err e
    | .crash => .crash

/-- evaluate from lib.rs: evaluate_with_interrupt with the Never
interrupt. -/
def evaluate (evaluator : String → Interrupt → RRes String) (input : String) :
    RRes FendResult :=
  evaluate_with_interrupt evaluator input Never

/-- A named unit whose decomposition has a base exponent different from
one: it stands for a square kilogram, decomposing to kilogram ^ 2 with
scale 1. Used to exercise the first insert path of
into_hashmap_and_scale. -/
def named_sq : NamedUnit := ⟨"sq", "sq", true, [⟨base_kg, 2⟩], 1⟩

/-- The unit consisting of the single component named_sq ^ 1. -/
def unit_sq : Unit := ⟨[⟨named_sq, 1⟩]⟩

/- ----------------------------------------------------------------
Claim theorems, preceded by sanity checks evaluating the embedding on
the concrete inputs pinned by the tests in unit.rs and by the spec.
---------------------------------------------------------------- -/

example : Unit.try_convert UnitValue.g.unit UnitValue.kg.unit = .ok (1 / 1000) := by decide

example : fmtRes (UnitValue.add UnitValue.kg (UnitValue.new 12 [⟨named_g, 1⟩]))
    = .ok "1.012 kg" := by decide

example : fmtRes (UnitValue.add (UnitValue.new 12 [⟨named_g, 1⟩]) UnitValue.kg)
    = .ok "1012 g" := by decide

example : fmtRes (UnitValue.add UnitValue.kg (UnitValue.new 2 [⟨named_kg, 1⟩]))
    = .ok "3 kg" := by decide

example : lex "123".toList Never = .ok [Token.num 123] := by decide

example : lex "123".toList (fun _ => true) = .interrupted := by decide

example : lex "1 kg + 12 g".toList Never
    = .ok [Token.num 1, Token.ident "kg", Token.symbol Symbol.add,
           Token.num 12, Token.ident "g"] := by decide

example : lex "0x123".toList Never = .ok [Token.num 291] := by decide

/-- C1: the claim requires the first insert path of
into_hashmap_and_scale to create an absent entry at e * baseExp, exactly
like the accumulate path. The code inserts the overall exponent e
instead. On a unit with a single component whose named unit decomposes
to kilogram ^ 2 (overall exponent 1), the code map sends kilogram to 1
while the specification formula e * baseExp sums to 2, so the claim
fails on the code; the two paths of the source are mutually
inconsistent and the spec flags this very asymmetry as a latent
correctness gap, so this records a code bug. -/
theorem c1_first_insert_path_bug :
    Unit.into_hashmap_and_scale unit_sq = some ([(base_kg, 1)], 1)
    ∧ specBaseExpSum unit_sq base_kg = 2
    ∧ assocGet [(base_kg, (1 : ℚ))] base_kg ≠ some (specBaseExpSum unit_sq base_kg) := by
  refine ⟨by decide, by decide, by decide⟩

/-- C2: whenever the right unit converts into the left unit with factor
f, add returns the value a.value + b.value * f under the unit of the
left operand, and sub returns a.value - b.value * f under the same unit;
consequently 1 kg + 12 g renders as 1.012 kg and 12 g + 1 kg renders as
1012 g. -/
theorem c2_add_sub_left_unit_wins :
    (∀ a b f, Unit.try_convert b.unit a.unit = .ok f →
      UnitValue.add a b = .ok ⟨a.value + b.value * f, a.unit⟩
      ∧ UnitValue.sub a b = .ok ⟨a.value - b.value * f, a.unit⟩)
    ∧ fmtRes (UnitValue.add UnitValue.kg (UnitValue.new 12 [⟨named_g, 1⟩])) = .ok "1.012 kg"
    ∧ fmtRes (UnitValue.add (UnitValue.new 12 [⟨named_g, 1⟩]) UnitValue.kg) = .ok "1012 g" := by
  refine ⟨fun a b f h => ⟨?_, ?_⟩, by decide, by decide⟩
  · simp [UnitValue.add, h]
  · simp [UnitValue.sub, h]

/-- Witness for C2 at 1 kg plus 12 g: the conversion hypothesis holds
with factor 1 / 1000 and the theorem computes the sum. -/
theorem c2_witness :
    Unit.try_convert (UnitValue.new 12 [⟨named_g, 1⟩]).unit UnitValue.kg.unit = .ok (1 / 1000)
    ∧ UnitValue.add UnitValue.kg (UnitValue.new 12 [⟨named_g, 1⟩])
      = .ok ⟨UnitValue.kg.value + (UnitValue.new 12 [⟨named_g, 1⟩]).value * (1 / 1000),
             UnitValue.kg.unit⟩ := by
  have h : Unit.try_convert (UnitValue.new 12 [⟨named_g, 1⟩]).unit UnitValue.kg.unit
      = .ok (1 / 1000) := by decide
  exact ⟨h, (c2_add_sub_left_unit_wins.1 UnitValue.kg (UnitValue.new 12 [⟨named_g, 1⟩])
    (1 / 1000) h).1⟩

/-- Inversion of a successful try_convert: both canonicalizations
succeed, the base unit maps are equal, the divisor scale is not zero and
the factor is the quotient of the scales. -/
theorem try_convert_ok_inv {u v : Unit} {f : ℚ}
    (h : Unit.try_convert u v = .ok f) :
    ∃ mu su mv sv, Unit.into_hashmap_and_scale u = some (mu, su)
      ∧ Unit.into_hashmap_and_scale v = some (mv, sv)
      ∧ mapEq mu mv = true ∧ sv ≠ 0 ∧ f = su / sv := by
  unfold Unit.try_convert at h
  cases hu : Unit.into_hashmap_and_scale u with
  | none => rw [hu] at h; simp at h
  | some pu =>
    obtain ⟨mu, su⟩ := pu
    cases hv : Unit.into_hashmap_and_scale v with
    | none => rw [hu, hv] at h; simp at h
    | some pv =>
      obtain ⟨mv, sv⟩ := pv
      rw [hu, hv] at h
      by_cases hm : mapEq mu mv = true
      · by_cases hs : sv = 0
        · simp [hm, qdiv, hs] at h
        · simp [hm, qdiv, hs] at h
          exact ⟨mu, su, mv, sv, rfl, rfl, hm, hs, h.symm⟩
      · simp [hm] at h

/-- C3: whenever both canonicalizations succeed (the panic free domain
of the source), try_convert succeeds exactly when the two canonical base
unit exponent maps are equal, on success returns scale_from divided by
scale_into, and on map inequality fails with the DimensionMismatch
category, whose message is Units are incompatible. -/
theorem c3_try_convert_iff_maps_equal :
    ∀ u v mu su mv sv,
      Unit.into_hashmap_and_scale u = some (mu, su) →
      Unit.into_hashmap_and_scale v = some (mv, sv) →
      (mapEq mu mv = true → sv ≠ 0 → Unit.try_convert u v = .ok (su / sv))
      ∧ (mapEq mu mv = false → Unit.try_convert u v = .err "Units are incompatible")
      ∧ (∀ f, Unit.try_convert u v = .ok f → mapEq mu mv = true ∧ f = su / sv) := by
  intro u v mu su mv sv hu hv
  refine ⟨?_, ?_, ?_⟩
  · intro hm hs
    simp [Unit.try_convert, hu, hv, hm, qdiv, hs]
  · intro hm
    simp [Unit.try_convert, hu, hv, hm]
  · intro f hf
    obtain ⟨mu2, su2, mv2, sv2, hu2, hv2, hm2, hs2, hf2⟩ := try_convert_ok_inv hf
    rw [hu] at hu2
    rw [hv] at hv2
    simp only [Option.some.injEq, Prod.mk.injEq] at hu2 hv2
    obtain ⟨hmu, hsu⟩ := hu2
    obtain ⟨hmv, hsv⟩ := hv2
    subst hmu hsu hmv hsv
    exact ⟨hm2, hf2⟩

/-- Witness for C3: one kilogram converts into grams with factor 1000,
and kilogram does not convert into the unitless unit. -/
theorem c3_witness :
    Unit.try_convert UnitValue.kg.unit UnitValue.g.unit = .ok (1 / (1 / 1000))
    ∧ Unit.try_convert UnitValue.kg.unit Unit.unitless = .err "Units are incompatible" := by
  refine ⟨?_, ?_⟩
  · exact (c3_try_convert_iff_maps_equal UnitValue.kg.unit UnitValue.g.unit
      [(base_kg, 1)] 1 [(base_kg, 1)] (1 / 1000) (by decide) (by decide)).1
      (by decide) (by decide)
  · exact (c3_try_convert_iff_maps_equal UnitValue.kg.unit Unit.unitless
      [(base_kg, 1)] 1 [] 1 (by decide) (by decide)).2.1 (by decide)

/-- C4: pow and root_n fail with the UnsupportedUnitOperation category
whenever either operand carries a unit component, and otherwise delegate
to the scalar operation, keeping the unit of the left operand. -/
theorem c4_pow_root_unitless_only :
    ∀ a b : UnitValue,
      ((a.is_unitless = false ∨ b.is_unitless = false) →
        UnitValue.pow a b = .err "Exponents are currently only supported for unitless numbers."
        ∧ UnitValue.root_n a b = .err "Roots are currently only supported for unitless numbers.")
      ∧ (a.is_unitless = true → b.is_unitless = true →
        UnitValue.pow a b = liftScalar a.unit (qpow a.value b.value)
        ∧ UnitValue.root_n a b = liftScalar a.unit (qrootn a.value b.value)) := by
  intro a b
  constructor
  · rintro (h | h) <;>
      exact ⟨by simp [UnitValue.pow, h], by simp [UnitValue.root_n, h]⟩
  · intro ha hb
    constructor
    · cases hq : qpow a.value b.value <;> simp [UnitValue.pow, ha, hb, liftScalar, hq]
    · cases hq : qrootn a.value b.value <;> simp [UnitValue.root_n, ha, hb, liftScalar, hq]

/-- Witness for C4: one kilogram raised to a unitless 2 is rejected,
while unitless 4 to the unitless 2 delegates to the scalar power. -/
theorem c4_witness :
    (UnitValue.kg.is_unitless = false ∨ (UnitValue.fromNat 2).is_unitless = false)
    ∧ UnitValue.pow UnitValue.kg (UnitValue.fromNat 2)
      = .err "Exponents are currently only supported for unitless numbers."
    ∧ UnitValue.pow (UnitValue.fromNat 4) (UnitValue.fromNat 2)
      = liftScalar (UnitValue.fromNat 4).unit
          (qpow (UnitValue.fromNat 4).value (UnitValue.fromNat 2).value) := by
  refine ⟨Or.inl (by decide), ?_, ?_⟩
  · exact ((c4_pow_root_unitless_only UnitValue.kg (UnitValue.fromNat 2)).1
      (Or.inl (by decide))).1
  · exact ((c4_pow_root_unitless_only (UnitValue.fromNat 4) (UnitValue.fromNat 2)).2
      (by decide) (by decide)).1

/-- C5: division fails with the DivisionByZero category whenever the
scalar value of the right operand is zero, whatever units either operand
carries. -/
theorem c5_div_by_zero :
    ∀ a b : UnitValue, b.value = 0 → UnitValue.div a b = .err "Division by zero" := by
  intro a b h
  simp [UnitValue.div, qdiv, h]

/-- Witness for C5: one kilogram divided by zero grams. -/
theorem c5_witness :
    (UnitValue.new 0 [⟨named_g, 1⟩]).value = 0
    ∧ UnitValue.div UnitValue.kg (UnitValue.new 0 [⟨named_g, 1⟩]) = .err "Division by zero" :=
  ⟨by decide, c5_div_by_zero UnitValue.kg (UnitValue.new 0 [⟨named_g, 1⟩]) (by decide)⟩

/-- C6: the unit of a product is the concatenation of the component
sequences with no folding, the scalar of a product is the product of the
scalars, and on success the unit of a quotient is the left components
followed by the right components with negated exponents. -/
theorem c6_mul_div_unit_bookkeeping :
    ∀ a b : UnitValue,
      (UnitValue.mul a b).unit.components = a.unit.components ++ b.unit.components
      ∧ (UnitValue.mul a b).value = a.value * b.value
      ∧ ∀ r, UnitValue.div a b = .ok r →
          r.unit.components = a.unit.components
            ++ b.unit.components.map (fun c => UnitExponent.mk c.unit (-c.exponent)) := by
  intro a b
  refine ⟨rfl, rfl, ?_⟩
  intro r h
  cases hq : qdiv a.value b.value with
  | ok v =>
    simp [UnitValue.div, hq] at h
    rw [← h]
  | error e => simp [UnitValue.div, hq] at h

/-- Witness for C6: kg times kg keeps both components unfolded, and
kg divided by g negates the gram exponent. -/
theorem c6_witness :
    (UnitValue.mul UnitValue.kg UnitValue.kg).unit.components
      = UnitValue.kg.unit.components ++ UnitValue.kg.unit.components
    ∧ (⟨1, ⟨[⟨named_kg, 1⟩, ⟨named_g, -1⟩]⟩⟩ : UnitValue).unit.components
      = UnitValue.kg.unit.components
        ++ UnitValue.g.unit.components.map (fun c => UnitExponent.mk c.unit (-c.exponent)) := by
  refine ⟨(c6_mul_div_unit_bookkeeping UnitValue.kg UnitValue.kg).1, ?_⟩
  exact (c6_mul_div_unit_bookkeeping UnitValue.kg UnitValue.g).2.2
    ⟨1, ⟨[⟨named_kg, 1⟩, ⟨named_g, -1⟩]⟩⟩ (by decide)

/-- C7: when the two units convert into each other, addition commutes on
the scalars up to the unit conversion: the value of x plus y, expressed
in the unit of x, equals the value of y plus x, expressed in the unit of
y, multiplied by the factor converting the unit of y into the unit of x. -/
theorem c7_add_commutative_value :
    ∀ x y f g, Unit.try_convert y.unit x.unit = .ok f →
      Unit.try_convert x.unit y.unit = .ok g →
      ∃ vx vy, UnitValue.add x y = .ok vx ∧ UnitValue.add y x = .ok vy
        ∧ vx.value = vy.value * f := by
  intro x y f g hf hg
  refine ⟨⟨x.value + y.value * f, x.unit⟩, ⟨y.value + x.value * g, y.unit⟩,
    by simp [UnitValue.add, hf], by simp [UnitValue.add, hg], ?_⟩
  obtain ⟨my, sy, mx, sx, hy, hx, hm1, hsx, hfe⟩ := try_convert_ok_inv hf
  obtain ⟨mx2, sx2, my2, sy2, hx2, hy2, hm2, hsy, hge⟩ := try_convert_ok_inv hg
  rw [hx] at hx2
  rw [hy] at hy2
  simp only [Option.some.injEq, Prod.mk.injEq] at hx2 hy2
  obtain ⟨hmx, hsx2⟩ := hx2
  obtain ⟨hmy, hsy2⟩ := hy2
  subst hmx hsx2 hmy hsy2
  subst hfe hge
  field_simp
  ring

/-- Witness for C7 at 1 kg and 12 g: the two conversion factors are
1 / 1000 and 1000, and the theorem produces the pair of sums. -/
theorem c7_witness :
    ∃ vx vy, UnitValue.add UnitValue.kg (UnitValue.new 12 [⟨named_g, 1⟩]) = .ok vx
      ∧ UnitValue.add (UnitValue.new 12 [⟨named_g, 1⟩]) UnitValue.kg = .ok vy
      ∧ vx.value = vy.value * (1 / 1000) :=
  c7_add_commutative_value UnitValue.kg (UnitValue.new 12 [⟨named_g, 1⟩])
    (1 / 1000) (1 / (1 / 1000)) (by decide) (by decide)

/-- C8: a zero accumulator fed the digits 1, 2, 3 through
add_digit_in_base yields exactly 123 in base 10 and exactly 291 in base
16, and each step multiplies the current value by the base and adds the
digit. -/
theorem c8_digit_accumulation :
    ([1, 2, 3].foldl (fun v d => UnitValue.add_digit_in_base v d Base.default)
        (UnitValue.zero_with_base Base.default)).value = 123
    ∧ ([1, 2, 3].foldl (fun v d => UnitValue.add_digit_in_base v d ⟨16, true⟩)
        (UnitValue.zero_with_base ⟨16, true⟩)).value = 291
    ∧ ∀ (v : UnitValue) (d : ℕ) (b : Base),
        (UnitValue.add_digit_in_base v d b).value
          = v.value * (b.base_as_u8 : ℚ) + (d : ℚ) :=
  ⟨by decide, by decide, fun _ _ _ => rfl⟩

/-- C10: both public entry points applied to the empty string succeed
with an empty main result and no other info, for every evaluator and
every interrupt, so the evaluator is never consulted. -/
theorem c10_empty_input_success :
    ∀ (evaluator : String → Interrupt → RRes String) (int : Interrupt),
      evaluate_with_interrupt evaluator "" int = .ok ⟨"", []⟩
      ∧ evaluate evaluator "" = .ok ⟨"", []⟩ := by
  intro evaluator int
  have h : "".isEmpty = true := by decide
  exact ⟨by simp [evaluate_with_interrupt, h], by simp [evaluate, evaluate_with_interrupt, h]⟩

/- ----------------------------------------------------------------
The interrupted outcome of the lexer: helper lemmas showing that no
parsing helper ever fabricates the interrupted outcome, so it can only
come from a poll of the caller supplied interrupt.
---------------------------------------------------------------- -/

theorem parse_char_ni (input : List Char) : parse_char input ≠ .interrupted := by
  cases input <;> simp [parse_char]

theorem parse_ascii_digit_ni (input : List Char) (b : Base) :
    parse_ascii_digit input b ≠ .interrupted := by
  have h := parse_char_ni input
  unfold parse_ascii_digit
  repeat' split
  all_goals simp_all

theorem parse_fixed_char_ni (input : List Char) (ch : Char) :
    parse_fixed_char input ch ≠ .interrupted := by
  have h := parse_char_ni input
  unfold parse_fixed_char
  repeat' split
  all_goals simp_all

theorem parse_digit_separator_ni (input : List Char) :
    parse_digit_separator input ≠ .interrupted := by
  have h := parse_char_ni input
  unfold parse_digit_separator
  repeat' split
  all_goals simp_all

theorem parse_integer_loop_ni (S : Type) (asep alz : Bool) (base : Base)
    (process : S → ℕ → RRes S) (hp : ∀ s d, process s d ≠ .interrupted) :
    ∀ (fuel : ℕ) (lz : Bool) (state : S) (input : List Char),
      parse_integer_loop S fuel asep alz base lz process state input ≠ .interrupted := by
  intro fuel
  induction fuel with
  | zero => intro lz state input; simp [parse_integer_loop]
  | succ n ih =>
    intro lz state input
    have okpath : ∀ (digit : ℕ) (next_input : List Char),
        ¬(if lz && !alz then RRes.err "Integer literals cannot have leading zeroes"
          else
            match process state digit with
            | RRes.ok state2 => parse_integer_loop S n asep alz base lz process state2 next_input
            | RRes.err e => RRes.err e
            | RRes.interrupted => RRes.interrupted
            | RRes.crash => RRes.crash) = RRes.interrupted := by
      intro digit next_input
      cases hlz : lz && !alz with
      | true => simp [hlz]
      | false =>
        simp only [hlz, Bool.false_eq_true, if_false]
        cases hpr : process state digit with
        | ok state2 => simp only [hpr]; exact ih _ _ _
        | err e => simp [hpr]
        | interrupted => exact absurd hpr (hp _ _)
        | crash => simp [hpr]
    unfold parse_integer_loop
    cases hsep : parse_digit_separator input with
    | ok remaining =>
      simp only [hsep]
      cases asep with
      | false => simp
      | true =>
        simp only [Bool.not_true, Bool.and_false, Bool.false_eq_true, if_false]
        cases hd : parse_ascii_digit remaining base with
        | ok p =>
          obtain ⟨digit, next_input⟩ := p
          simp only [hd]
          exact okpath digit next_input
        | err e => simp [hd]
        | interrupted => simp [hd]
        | crash => simp [hd]
    | err e =>
      simp only [hsep]
      cases hd : parse_ascii_digit input base with
      | ok p =>
        obtain ⟨digit, next_input⟩ := p
        simp only [hd]
        exact okpath digit next_input
      | err e2 => simp [hd]
      | interrupted => simp [hd]
      | crash => simp [hd]
    | interrupted =>
      simp only [hsep]
      cases hd : parse_ascii_digit input base with
      | ok p =>
        obtain ⟨digit, next_input⟩ := p
        simp only [hd]
        exact okpath digit next_input
      | err e2 => simp [hd]
      | interrupted => simp [hd]
      | crash => simp [hd]
    | crash =>
      simp only [hsep]
      cases hd : parse_ascii_digit input base with
      | ok p =>
        obtain ⟨digit, next_input⟩ := p
        simp only [hd]
        exact okpath digit next_input
      | err e2 => simp [hd]
      | interrupted => simp [hd]
      | crash => simp [hd]

theorem parse_integer_ni (S : Type) (input : List Char) (asep alz : Bool) (base : Base)
    (state : S) (process : S → ℕ → RRes S) (hp : ∀ s d, process s d ≠ .interrupted) :
    parse_integer S input asep alz base state process ≠ .interrupted := by
  unfold parse_integer
  repeat' split
  all_goals simp_all [parse_ascii_digit_ni, parse_integer_loop_ni S asep alz base process hp]

theorem custom_base_step_ni (s d : ℕ) : custom_base_step s d ≠ .interrupted := by
  unfold custom_base_step
  repeat' split
  all_goals try simp
  all_goals repeat' split
  all_goals simp

theorem number_digit_step_ni (base : Base) (s : ℚ) (d : ℕ) :
    number_digit_step base s d ≠ .interrupted := by
  simp [number_digit_step]

theorem frac_digit_step_ni (base : Base) (s : ℚ) (d : ℕ) :
    frac_digit_step base s d ≠ .interrupted := by
  simp [frac_digit_step]

theorem parse_base_prefix_ni (input : List Char) : parse_base_prefix input ≠ .interrupted := by
  have custom : ¬(match parse_integer ℕ input false false Base.default 0 custom_base_step with
      | RRes.ok (custom_base, input1) =>
        if custom_base < 2 then RRes.err "Base must be at least 2"
        else
          match parse_fixed_char input1 '#' with
          | RRes.ok input2 =>
            match Base.from_custom_base custom_base with
            | Except.ok b => RRes.ok (b, input2)
            | Except.error e => RRes.err e
          | RRes.err e => RRes.err e
          | RRes.interrupted => RRes.interrupted
          | RRes.crash => RRes.crash
      | RRes.err e => RRes.err e
      | RRes.interrupted => RRes.interrupted
      | RRes.crash => RRes.crash) = RRes.interrupted := by
    cases hI : parse_integer ℕ input false false Base.default 0 custom_base_step with
    | ok p =>
      obtain ⟨custom_base, input1⟩ := p
      simp only [hI]
      by_cases h2 : custom_base < 2
      · rw [if_pos h2]; simp
      · rw [if_neg h2]
        cases hsh : parse_fixed_char input1 '#' with
        | ok input2 =>
          simp only [hsh]
          cases hb : Base.from_custom_base custom_base <;> simp [hb]
        | err e => simp [hsh]
        | interrupted => exact absurd hsh (parse_fixed_char_ni input1 _)
        | crash => simp [hsh]
    | err e => simp [hI]
    | interrupted =>
      exact absurd hI (parse_integer_ni ℕ input false false Base.default 0 custom_base_step
        custom_base_step_ni)
    | crash => simp [hI]
  unfold parse_base_prefix
  cases h0 : parse_fixed_char input '0' with
  | ok input1 =>
    simp only [h0]
    cases hc : parse_char input1 with
    | ok p =>
      obtain ⟨ch, input2⟩ := p
      simp only [hc]
      cases hb : Base.from_zero_based_prefix_char ch <;> simp [hb]
    | err e => simp [hc]
    | interrupted => exact absurd hc (parse_char_ni input1)
    | crash => simp [hc]
  | err e => simp only [h0]; exact custom
  | interrupted => exact absurd h0 (parse_fixed_char_ni input _)
  | crash => simp only [h0]; exact custom

theorem parse_basic_number_ni (input : List Char) (base : Base) (az : Bool) :
    parse_basic_number input base az ≠ .interrupted := by
  have h1 : ∀ (inp : List Char) (st : ℚ) (asep alz : Bool),
      parse_integer ℚ inp asep alz base st (number_digit_step base) ≠ .interrupted :=
    fun inp st asep alz =>
      parse_integer_ni ℚ inp asep alz base st (number_digit_step base)
        (number_digit_step_ni base)
  have h2 : ∀ (inp : List Char) (st : ℚ) (asep alz : Bool),
      parse_integer ℚ inp asep alz base st (frac_digit_step base) ≠ .interrupted :=
    fun inp st asep alz =>
      parse_integer_ni ℚ inp asep alz base st (frac_digit_step base)
        (frac_digit_step_ni base)
  have tail : ∀ (res1 : ℚ) (input2 : List Char),
      ¬(if !az && decide (res1 = 0) then RRes.err "Invalid number: 0"
        else if base.base_as_u8 ≤ 10 then
          match parse_fixed_char input2 'e' with
          | RRes.ok remaining =>
            let abort :=
              match parse_char remaining with
              | .ok (ch, _) => !(ch.isAlphanum || ch = '+' || ch = '-')
              | _ => true
            if abort then .ok (res1, input2)
            else
              let signStep :=
                match parse_fixed_char remaining '-' with
                | .ok r2 => (true, r2)
                | _ =>
                  match parse_fixed_char remaining '+' with
                  | .ok r2 => (false, r2)
                  | _ => (false, remaining)
              match parse_integer ℚ signStep.2 true true base 0 (number_digit_step base) with
              | .ok (exp0, remaining2) =>
                let exp1 := if signStep.1 then -exp0 else exp0
                match qpow (base.base_as_u8 : ℚ) exp1 with
                | .ok p => .ok (res1 * p, remaining2)
                | .error e => .err e
              | .err e => .err e
              | .interrupted => .interrupted
              | .crash => .crash
          | _ => .ok (res1, input2)
        else .ok (res1, input2)) = RRes.interrupted := by
    intro res1 input2
    have exps : ∀ (sgn : Bool) (inp : List Char),
        ¬(match parse_integer ℚ inp true true base 0 (number_digit_step base) with
          | RRes.ok (exp0, remaining2) =>
            match qpow (base.base_as_u8 : ℚ) (if sgn then -exp0 else exp0) with
            | Except.ok p => RRes.ok (res1 * p, remaining2)
            | Except.error e => RRes.err e
          | RRes.err e => RRes.err e
          | RRes.interrupted => RRes.interrupted
          | RRes.crash => RRes.crash) = RRes.interrupted := by
      intro sgn inp
      cases hexp : parse_integer ℚ inp true true base 0 (number_digit_step base) with
      | ok q =>
        obtain ⟨exp0, remaining2⟩ := q
        cases hq : qpow (base.base_as_u8 : ℚ) (if sgn then -exp0 else exp0) <;>
          simp [hexp, hq]
      | err e => simp [hexp]
      | interrupted => exact absurd hexp (h1 inp 0 true true)
      | crash => simp [hexp]
    cases hz : !az && decide (res1 = 0) with
    | true => simp [hz]
    | false =>
      simp only [hz, Bool.false_eq_true, if_false]
      by_cases hb : base.base_as_u8 ≤ 10
      · rw [if_pos hb]
        cases he : parse_fixed_char input2 'e' with
        | ok remaining =>
          simp only [he]
          cases hpc : parse_char remaining with
          | ok p =>
            obtain ⟨ch, p2⟩ := p
            simp only [hpc]
            by_cases hab : (!(ch.isAlphanum || ch = '+' || ch = '-')) = true
            · rw [if_pos hab]; simp
            · rw [if_neg hab]
              cases hminus : parse_fixed_char remaining '-' with
              | ok r2 => simp only [hminus]; exact exps true r2
              | err e =>
                simp only [hminus]
                cases hplus : parse_fixed_char remaining '+' with
                | ok r2 => simp only [hplus]; exact exps false r2
                | err e2 => simp only [hplus]; exact exps false remaining
                | interrupted => exact absurd hplus (parse_fixed_char_ni remaining _)
                | crash => simp only [hplus]; exact exps false remaining
              | interrupted => exact absurd hminus (parse_fixed_char_ni remaining _)
              | crash =>
                simp only [hminus]
                cases hplus : parse_fixed_char remaining '+' with
                | ok r2 => simp only [hplus]; exact exps false r2
                | err e2 => simp only [hplus]; exact exps false remaining
                | interrupted => exact absurd hplus (parse_fixed_char_ni remaining _)
                | crash => simp only [hplus]; exact exps false remaining
          | err e => simp [hpc]
          | interrupted => exact absurd hpc (parse_char_ni remaining)
          | crash => simp [hpc]
        | err e => simp [he]
        | interrupted => exact absurd he (parse_fixed_char_ni input2 _)
        | crash => simp [he]
      · rw [if_neg hb]
        simp
  unfold parse_basic_number
  cases hI : parse_integer ℚ input true base.allow_leading_zeroes base 0
      (number_digit_step base) with
  | ok p =>
    obtain ⟨res0, input1⟩ := p
    simp only [hI]
    cases hdot : parse_fixed_char input1 '.' with
    | ok remaining =>
      simp only [hdot]
      cases hf : parse_integer ℚ remaining true true base res0 (frac_digit_step base) with
      | ok q =>
        obtain ⟨res1, input2⟩ := q
        simp only [hf]
        exact tail res1 input2
      | err e => simp [hf]
      | interrupted => exact absurd hf (h2 remaining res0 true true)
      | crash => simp [hf]
    | err e =>
      simp only [hdot]
      exact tail res0 input1
    | interrupted => exact absurd hdot (parse_fixed_char_ni input1 _)
    | crash =>
      simp only [hdot]
      exact tail res0 input1
  | err e => simp [hI]
  | interrupted =>
    exact absurd hI (h1 input 0 true base.allow_leading_zeroes)
  | crash => simp [hI]

theorem parse_number_ni (input : List Char) : parse_number input ≠ .interrupted := by
  unfold parse_number
  cases hb : parse_base_prefix input with
  | ok p =>
    obtain ⟨base, input1⟩ := p
    simp only [hb]
    exact parse_basic_number_ni input1 base true
  | err e =>
    simp only [hb]
    exact parse_basic_number_ni input Base.default true
  | interrupted => exact absurd hb (parse_base_prefix_ni input)
  | crash =>
    simp only [hb]
    exact parse_basic_number_ni input Base.default true

theorem parse_ident_ni (input : List Char) : parse_ident input ≠ .interrupted := by
  unfold parse_ident
  cases hc : parse_char input with
  | ok p =>
    obtain ⟨first_char, rest⟩ := p
    simp only [hc]
    repeat' split
    all_goals simp
  | err e => simp [hc]
  | interrupted => exact absurd hc (parse_char_ni input)
  | crash => simp [hc]

theorem lex_aux_ni (int : Interrupt) (h : ∀ n, int n = false) :
    ∀ (fuel polls : ℕ) (input : List Char) (res : List Token),
      lex_aux int fuel polls input res ≠ .interrupted := by
  intro fuel
  induction fuel with
  | zero => intro polls input res; simp [lex_aux]
  | succ n ih =>
    intro polls input res
    unfold lex_aux
    rw [h polls, if_neg Bool.false_ne_true]
    cases input with
    | nil => simp
    | cons ch rest =>
      dsimp only
      by_cases hw : ch.isWhitespace = true
      · rw [if_pos hw]; exact ih _ _ _
      · rw [if_neg hw]
        by_cases hd : ch.isDigit = true
        · rw [if_pos hd]
          cases hn : parse_number (ch :: rest) with
          | ok p =>
            obtain ⟨num, remaining⟩ := p
            simp only [hn]
            exact ih _ _ _
          | err e => simp [hn]
          | interrupted => exact absurd hn (parse_number_ni (ch :: rest))
          | crash => simp [hn]
        · rw [if_neg hd]
          by_cases hi : (is_valid_in_ident ch true || is_valid_in_ident_char ch) = true
          · rw [if_pos hi]
            cases hp : parse_ident (ch :: rest) with
            | ok p =>
              obtain ⟨tok, remaining⟩ := p
              simp only [hp]
              exact ih _ _ _
            | err e => simp [hp]
            | interrupted => exact absurd hp (parse_ident_ni (ch :: rest))
            | crash => simp [hp]
          · rw [if_neg hi]
            repeat' split
            all_goals first
              | exact ih _ _ _
              | simp

/-- C9: when the caller supplied interrupt reports a cancellation
request at the very first poll, lex returns the distinguished
interrupted outcome on every input, never a token list and never an
ordinary error; and when no poll ever reports a request, lex never
returns the interrupted outcome, so the cancellation channel is not
coalesced with the ordinary error channel. -/
theorem c9_interrupt_distinct_channel :
    (∀ input : List Char, lex input (fun _ => true) = .interrupted)
    ∧ ∀ (input : List Char) (int : Interrupt),
        (∀ n, int n = false) → lex input int ≠ .interrupted := by
  constructor
  · intro input
    show lex_aux (fun _ => true) (input.length + 1) 0 input [] = .interrupted
    unfold lex_aux
    simp
  · intro input int h
    exact lex_aux_ni int h (input.length + 1) 0 input []

/-- Witness for C9 on the input 1: an immediately cancelling interrupt
produces the interrupted outcome, and a never cancelling interrupt does
not. -/
theorem c9_witness :
    lex ['1'] (fun _ => true) = .interrupted
    ∧ lex ['1'] (fun _ => false) ≠ .interrupted :=
  ⟨c9_interrupt_distinct_channel.1 ['1'],
   c9_interrupt_distinct_channel.2 ['1'] (fun _ => false) (fun _ => rfl)⟩

end fend
